import Mathlib

/-!
# Verification of the pi-backup-tool operation controller

A shallow embedding of the operation controller of `src/index.js` of the
`pi-backup-tool` repository, together with theorems settling the frozen
claims about it.

The embedding covers:

* the progress parser used on `dd` stderr chunks (the regular expressions
  `/bytes.*copied/`, `/records (in|out)/`, `/(\d+)\s+bytes/` and
  `/([\d.]+)\s*([MGK]?B\/s)/`, together with `String.prototype.trim` and
  the megabyte display conversion `(bytes / 1024 / 1024).toFixed(1)`);
* the pipeline state machine: `validateAndBackup`, `checkSourceAndBackup`,
  `runBackup`, `runPishrink` and `validateAndRestore`, `runRestore`,
  with the relevant pieces of React component state (`state`, `source`,
  `destination`, `bytesWritten`, `speed`, `error`, `logs`).

Subprocess outcomes are supplied by an environment record `Env`: each
spawned process either closes with an exit code or fails to launch
(the `error` event), and the copy subprocess additionally delivers a list
of stderr chunks before closing.  JavaScript numbers are modelled as exact
naturals / integers (all byte counts and exit codes that occur are far
below 2^53, where JavaScript arithmetic is exact).
-/

/-! ## Character classes and small string utilities -/

/-- The characters accepted by the JavaScript regex class `\s`
(restricted to the ASCII range, which is all `dd` ever emits). -/
def isWsChar (c : Char) : Bool :=
  c = ' ' || c = '\t' || c = '\n' || c = '\r' || c = '\x0b' || c = '\x0c'

/-- The characters accepted by the regex class `[\d.]`. -/
def isRateChar (c : Char) : Bool :=
  c.isDigit || c = '.'

/-- Decimal reading of a digit string, the core of `parseInt` on an
all-digit string (exact, as JavaScript is below 2^53). -/
def digitsToNat (l : List Char) : Nat :=
  l.foldl (fun n c => n * 10 + (c.toNat - 48)) 0

/-- The effect of `String.prototype.trim` on the underlying character list: strip
whitespace from both ends. -/
def trimL (l : List Char) : List Char :=
  ((l.dropWhile isWsChar).reverse.dropWhile isWsChar).reverse

/-- The embedding of `String.prototype.trim`. -/
def trimS (s : String) : String :=
  String.mk (trimL s.data)

/-- The call `substring(0, 60)`: the first sixty characters. -/
def take60 (s : String) : String :=
  String.mk (s.data.take 60)

/-- The call `array.slice(-5)`: the last five elements (or all, when fewer). -/
def takeLast5 {α : Type} (l : List α) : List α :=
  l.drop (l.length - 5)

/-! ## Generic scanners

A JavaScript regex match without anchors scans the start positions of the
subject string from the left and succeeds at the first position where the
pattern matches.  `scanPred` and `scanOpt` implement that scan for a
pattern given as a function on the suffix starting at the current
position. -/

/-- Scan all suffixes, left to right, for one satisfying `p`. -/
def scanPred (p : List Char → Bool) : List Char → Bool
  | [] => false
  | l@(_ :: rest) => p l || scanPred p rest

/-- Scan all suffixes, left to right, returning the first extraction
`p` produces (the leftmost regex match). -/
def scanOpt {α : Type} (p : List Char → Option α) : List Char → Option α
  | [] => none
  | l@(_ :: rest) =>
    match p l with
    | some a => some a
    | none => scanOpt p rest

/-- Substring test: `String.prototype.includes`, used to state the
"reason contains ..." parts of the spec. -/
def containsStr (pat s : String) : Bool :=
  scanPred (fun l => pat.data.isPrefixOf l) s.data

/-! ## The progress parser (regexes of `runBackup` / `runRestore`) -/

/-- The part `.*copied` after the match of `bytes`: scan for the literal `copied`
without crossing a line terminator (the JavaScript `.` does not match
`\n` or `\r`). -/
def findCopied : List Char → Bool
  | [] => false
  | l@(c :: rest) =>
    if ['c','o','p','i','e','d'].isPrefixOf l then true
    else if c = '\n' || c = '\r' then false
    else findCopied rest

/-- The test `output.match(/bytes.*copied/)`. -/
def matchBytesCopied (l : List Char) : Bool :=
  scanPred (fun l => ['b','y','t','e','s'].isPrefixOf l && findCopied (l.drop 5)) l

/-- The test `output.match(/records (in|out)/)`. -/
def matchRecords (l : List Char) : Bool :=
  scanPred (fun l =>
    ['r','e','c','o','r','d','s',' ','i','n'].isPrefixOf l ||
    ['r','e','c','o','r','d','s',' ','o','u','t'].isPrefixOf l) l

/-- Chunk classification of the copy stage: a stderr chunk is retained as
the candidate failure reason exactly when it matches neither
`/bytes.*copied/` nor `/records (in|out)/` (the condition guarding
`lastError = output.trim()`). -/
def isErrorLineL (l : List Char) : Bool :=
  !matchBytesCopied l && !matchRecords l

/-- String-level chunk classification. -/
def isErrorLine (s : String) : Bool :=
  isErrorLineL s.data

/-- One position of `/(\d+)\s+bytes/`: a maximal nonempty digit run, a
nonempty whitespace run, then the literal `bytes`.  (Maximal runs are
equivalent to the regex's greedy backtracking here because the classes
`\d`, `\s` and the letter `b` are pairwise disjoint.) -/
def tryBytesAt (l : List Char) : Option (List Char) :=
  let ds := l.takeWhile Char.isDigit
  if ds.isEmpty then none
  else
    let r1 := l.dropWhile Char.isDigit
    if (r1.takeWhile isWsChar).isEmpty then none
    else if ['b','y','t','e','s'].isPrefixOf (r1.dropWhile isWsChar) then some ds
    else none

/-- The match `output.match(/(\d+)\s+bytes/)`, returning the captured
digit group of the leftmost match. -/
def findBytesL (l : List Char) : Option (List Char) :=
  scanOpt tryBytesAt l

/-- The call `parseInt(bytesMatch[1])` applied to the leftmost match. -/
def findBytes (s : String) : Option Nat :=
  (findBytesL s.data).map digitsToNat

/-- The alternative `[MGK]?B\/s` of the rate regex at a fixed position. -/
def matchUnit (l : List Char) : Option (List Char × List Char) :=
  match l with
  | 'M' :: 'B' :: '/' :: 's' :: r => some (['M','B','/','s'], r)
  | 'G' :: 'B' :: '/' :: 's' :: r => some (['G','B','/','s'], r)
  | 'K' :: 'B' :: '/' :: 's' :: r => some (['K','B','/','s'], r)
  | 'B' :: '/' :: 's' :: r => some (['B','/','s'], r)
  | _ => none

/-- One position of `/([\d.]+)\s*([MGK]?B\/s)/`: a maximal nonempty
`[\d.]` run, a maximal whitespace run, then a rate unit.  (Again maximal
runs coincide with greedy backtracking: `[\d.]`, `\s` and the unit head
characters `M`, `G`, `K`, `B` are pairwise disjoint.) -/
def trySpeedAt (l : List Char) : Option (List Char × List Char) :=
  let g1 := l.takeWhile isRateChar
  if g1.isEmpty then none
  else
    match matchUnit ((l.dropWhile isRateChar).dropWhile isWsChar) with
    | some (u, _) => some (g1, u)
    | none => none

/-- The match `output.match(/([\d.]+)\s*([MGK]?B\/s)/)`: the two captured
groups of the leftmost match. -/
def findSpeedL (l : List Char) : Option (List Char × List Char) :=
  scanOpt trySpeedAt l

/-- The rate text `speedMatch[1] + ' ' + speedMatch[2]` stored by the
controller. -/
def findSpeed (s : String) : Option String :=
  (findSpeedL s.data).map (fun p => String.mk p.1 ++ " " ++ String.mk p.2)

/-! ## The megabyte display conversion

`runBackup` / `runRestore` convert the parsed byte count with
`const mb = (bytes / 1024 / 1024).toFixed(1)` and display `` `${mb} MB` ``.
For byte counts below 2^53 the two divisions by 1024 are exact in binary
floating point, and `toFixed(1)` renders the nearest tenth, ties away
from zero; so the displayed number is `⌊bytes·10/2^20 + 1/2⌋` tenths,
which `mbTenths` computes in exact integer arithmetic. -/

/-- The value displayed by `toFixed(1)`, in tenths:
`⌊bytes/1024/1024 · 10 + 1/2⌋`. -/
def mbTenths (bytes : Nat) : Nat :=
  (20 * bytes + 1048576) / 2097152

/-- The rational value `bytes / 1024 / 1024` computed by the controller. -/
def mbValue (bytes : Nat) : ℚ :=
  (bytes : ℚ) / 1024 / 1024

/-- Decimal rendering of a number of tenths, as `toFixed(1)` does. -/
def toFixed1Tenths (t : Nat) : String :=
  toString (t / 10) ++ "." ++ toString (t % 10)

/-- The displayed text `` `${mb} MB` ``. -/
def mbDisplay (bytes : Nat) : String :=
  toFixed1Tenths (mbTenths bytes) ++ " MB"

/-! ## Disk identifier extraction and compressed-suffix test -/

/-- One position of `/r?(disk\d+)/`, returning the captured group: the
optional leading `r` does not change the capture, which is `disk`
followed by a maximal nonempty digit run. -/
def tryDiskAt (l : List Char) : Option (List Char) :=
  if ['d','i','s','k'].isPrefixOf l then
    let ds := (l.drop 4).takeWhile Char.isDigit
    if ds.isEmpty then none else some (['d','i','s','k'] ++ ds)
  else none

/-- The match `path.match(/r?(disk\d+)/)`: capture group 1 of the
leftmost match, used to pick the `diskutil unmountDisk` argument. -/
def diskMatch (s : String) : Option String :=
  (scanOpt tryDiskAt s.data).map String.mk

/-- The test `source.endsWith('.gz')`, the compressed-image branch of `runRestore`. -/
def endsWithGz (s : String) : Bool :=
  ['.','g','z'].isSuffixOf s.data

/-! ## The controller state machine -/

/-- The application states of the `STATES` table (the controller states;
menu and selection states are presentation-only but kept for fidelity). -/
inductive JState where
  | mainMenu | selectSource | selectDest | confirm
  | validating | backingUp | shrinking | restoring | complete | error
  deriving DecidableEq, Repr

/-- The subprocesses the controller can spawn, used to record which
stages actually launched a process during a run. -/
inductive Proc where
  | sudoCheck   -- `sudo -v`
  | unmount     -- `diskutil unmountDisk <disk>`
  | sourceCheck -- `sudo test -e <source>`
  | ddCopy      -- `sudo dd ...` (backup, or uncompressed restore)
  | gunzipDd    -- `sudo bash -c 'gunzip -c ... | dd ...'`
  | download    -- `sudo bash -c 'curl ... pishrink.sh ...'`
  | pishrink    -- `sudo bash pishrink.sh -v <image>`
  deriving DecidableEq, Repr

/-- Outcome of a spawned subprocess: the `close` event with an exit code,
or the `error` event (the executable could not be started). -/
inductive ProcResult where
  | close (code : Int)
  | failed (msg : String)
  deriving DecidableEq, Repr

/-- The React component state the controller reads and writes
(`useState` hooks of `App`). -/
structure AppState where
  state : JState
  source : String
  destination : String
  bytesWritten : String
  speed : String
  error : String
  logs : List String
  shrinkProgress : String
  deriving DecidableEq, Repr

/-- The `useState` initial values: in particular `bytesWritten` and
`speed` start as the string `"0"` when the component mounts. -/
def initialApp : AppState :=
  { state := .mainMenu, source := "", destination := "",
    bytesWritten := "0", speed := "0", error := "", logs := [],
    shrinkProgress := "" }

/-- The environment of one pipeline run: the outcome of every subprocess
the run may spawn.  The download process registers only a `close`
handler in the source, so its outcome is just an exit code.  Stdout
handlers of the copy, unmount and pishrink processes only append log
lines (and `shrinkProgress` text) and carry no control flow, so those
streams are not modelled; the copy stderr chunks are, since they drive
the parser and the retained failure reason.  Chunks are folded before
the close outcome is dispatched, matching the event order. -/
structure Env where
  platform : String
  sudoCheck : ProcResult
  unmountRes : ProcResult
  unmountStderr : String
  sourceCheck : ProcResult
  copyStderr : List String
  copyRes : ProcResult
  pishrinkExists : Bool
  downloadCode : Int
  shrinkRes : ProcResult
  deriving Repr

/-- The observable effect of a run: the final component state, the
`setState` calls made (in order) and the subprocesses spawned (in
order). -/
structure Run where
  app : AppState
  visited : List JState
  launched : List Proc
  deriving Repr

/-- A `setState(s)` call. -/
def setStateR (r : Run) (s : JState) : Run :=
  { r with app := { r.app with state := s }, visited := r.visited ++ [s] }

/-- A `setError(msg)` call. -/
def setErrR (r : Run) (msg : String) : Run :=
  { r with app := { r.app with error := msg } }

/-- The helper `addLog(m)`: keep the last five lines, append the new one. -/
def addLogA (a : AppState) (m : String) : AppState :=
  { a with logs := takeLast5 a.logs ++ [m] }

/-- The helper `addLog(m)` inside a run. -/
def addLogR (r : Run) (m : String) : Run :=
  { r with app := addLogA r.app m }

/-- Record a `spawn`. -/
def launch (r : Run) (p : Proc) : Run :=
  { r with launched := r.launched ++ [p] }

/-- The running `lastError` variable: a chunk that is not progress
chatter overwrites it with its trimmed text. -/
def lastErrStep (le : String) (chunk : String) : String :=
  if isErrorLine chunk then trimS chunk else le

/-- The component-state effect of one stderr chunk of the copy
subprocess: update `bytesWritten` when `/(\d+)\s+bytes/` matches, update
`speed` when the rate regex matches, and log the trimmed, truncated
chunk. -/
def chunkApp (a : AppState) (chunk : String) : AppState :=
  let a := match findBytes chunk with
    | some n => { a with bytesWritten := mbDisplay n }
    | none => a
  let a := match findSpeed chunk with
    | some sp => { a with speed := sp }
    | none => a
  addLogA a (take60 (trimS chunk))

/-- One `data` event of the copy subprocess's stderr. -/
def processChunk (p : AppState × String) (chunk : String) : AppState × String :=
  (chunkApp p.1 chunk, lastErrStep p.2 chunk)

/-- Spec-side view of the retained error text: the last chunk of the run
that was classified as non-progress. -/
def lastNonProgress (chunks : List String) : Option String :=
  (chunks.filter (fun c => isErrorLine c)).getLast?

/-- The `runShrink` closure inside `runPishrink`: spawn pishrink; every
outcome (exit 0, exit nonzero, launch failure) ends in `COMPLETE`. -/
def runShrinkStep (env : Env) (r : Run) : Run :=
  let r := addLogR r "Running pishrink to compress image..."
  let r := launch r .pishrink
  match env.shrinkRes with
  | .close c =>
    if c = 0 then setStateR (addLogR r "Shrink complete!") .complete
    else
      setStateR
        (addLogR r ("pishrink exited with code " ++ toString c ++
          " - image saved without shrinking")) .complete
  | .failed m =>
    setStateR
      (addLogR r ("pishrink not available: " ++ m ++
        " - image saved without shrinking")) .complete

/-- The function `runPishrink`: enter `SHRINKING`; when the tool is missing, download
it first (a failed download skips shrinking and completes). -/
def runPishrink (env : Env) (r : Run) : Run :=
  let r := setStateR r .shrinking
  if env.pishrinkExists then runShrinkStep env r
  else
    let r := addLogR r "pishrink not found, downloading..."
    let r := launch r .download
    if env.downloadCode = 0 then runShrinkStep env r
    else
      setStateR
        (addLogR r "Could not download pishrink - image saved without shrinking")
        .complete

/-- The function `runBackup`: enter `BACKING_UP`, spawn `dd`, fold the stderr chunks
through the parser, then dispatch on the `dd` outcome. -/
def runBackup (env : Env) (r : Run) : Run :=
  let r := setStateR r .backingUp
  let r := addLogR r ("Starting backup from " ++ r.app.source ++ " to " ++
    r.app.destination)
  let r := launch r .ddCopy
  let folded := env.copyStderr.foldl processChunk (r.app, "")
  let r := { r with app := folded.1 }
  match env.copyRes with
  | .close c =>
    if c = 0 then runPishrink env (addLogR r "Backup complete! Starting pishrink...")
    else
      let errorMsg := if folded.2 = "" then "exit code " ++ toString c else folded.2
      setStateR (setErrR r ("dd failed: " ++ errorMsg)) .error
  | .failed m => setStateR (setErrR r ("Failed to start dd: " ++ m)) .error

/-- The function `checkSourceAndBackup`: probe the source device with
`sudo test -e`; a failing probe is fatal, a passing one starts the
copy. -/
def checkSourceAndBackup (env : Env) (r : Run) : Run :=
  let r := addLogR r "Checking source device..."
  let r := launch r .sourceCheck
  match env.sourceCheck with
  | .close c =>
    if c = 0 then runBackup env r
    else setStateR (setErrR r ("Source device not found: " ++ r.app.source)) .error
  | .failed m => setStateR (setErrR r ("Cannot access source: " ++ m)) .error

/-- The function `validateAndBackup`: enter `VALIDATING`, check sudo, then (on darwin
with an extractable disk identifier in the source path) unmount — with
every unmount outcome continuing — and proceed to the source probe. -/
def validateAndBackup (env : Env) (st : AppState) : Run :=
  let r : Run := { app := st, visited := [], launched := [] }
  let r := setStateR r .validating
  let r := addLogR r "Validating sudo access..."
  let r := launch r .sudoCheck
  match env.sudoCheck with
  | .failed m => setStateR (setErrR r ("sudo failed: " ++ m)) .error
  | .close c =>
    if c = 0 then
      match diskMatch st.source with
      | some dname =>
        if env.platform = "darwin" then
          let r := addLogR r ("Unmounting " ++ dname ++ "...")
          let r := launch r .unmount
          match env.unmountRes with
          | .close uc =>
            if uc = 0 then
              checkSourceAndBackup env (addLogR r "Disk unmounted successfully")
            else
              checkSourceAndBackup env
                (addLogR r ("Unmount warning: " ++
                  (if trimS env.unmountStderr = "" then "disk may already be unmounted"
                   else trimS env.unmountStderr)))
          | .failed m =>
            checkSourceAndBackup env (addLogR r ("Unmount skipped: " ++ m))
        else checkSourceAndBackup env r
      | none => checkSourceAndBackup env r
    else
      setStateR
        (setErrR r "sudo authentication failed. Please run with sudo access.")
        .error

/-- The function `runRestore`: enter `RESTORING`; pick the two-process
`gunzip | dd` pipeline exactly when the source ends in `.gz`, else a
single `dd`; fold the stderr chunks; exit 0 completes, anything else is
fatal. -/
def runRestore (env : Env) (r : Run) : Run :=
  let r := setStateR r .restoring
  let r := addLogR r ("Restoring " ++ r.app.source ++ " to " ++ r.app.destination)
  let r :=
    if endsWithGz r.app.source then
      launch (addLogR r "Decompressing and writing image...") .gunzipDd
    else launch r .ddCopy
  let folded := env.copyStderr.foldl processChunk (r.app, "")
  let r := { r with app := folded.1 }
  match env.copyRes with
  | .close c =>
    if c = 0 then setStateR (addLogR r "Restore complete!") .complete
    else
      let errorMsg := if folded.2 = "" then "exit code " ++ toString c else folded.2
      setStateR (setErrR r ("Restore failed: " ++ errorMsg)) .error
  | .failed m => setStateR (setErrR r ("Failed to start restore: " ++ m)) .error

/-- The function `validateAndRestore`: like the backup validation but unmounting the
destination disk and with no source-existence probe. -/
def validateAndRestore (env : Env) (st : AppState) : Run :=
  let r : Run := { app := st, visited := [], launched := [] }
  let r := setStateR r .validating
  let r := addLogR r "Validating sudo access..."
  let r := launch r .sudoCheck
  match env.sudoCheck with
  | .failed m => setStateR (setErrR r ("sudo failed: " ++ m)) .error
  | .close c =>
    if c = 0 then
      match diskMatch st.destination with
      | some dname =>
        if env.platform = "darwin" then
          let r := addLogR r ("Unmounting " ++ dname ++ "...")
          let r := launch r .unmount
          match env.unmountRes with
          | .close uc =>
            if uc = 0 then runRestore env (addLogR r "Disk unmounted successfully")
            else runRestore env (addLogR r "Unmount warning: disk may already be unmounted")
          | .failed _ => runRestore env r
        else runRestore env r
      | none => runRestore env r
    else
      setStateR
        (setErrR r "sudo authentication failed. Please run with sudo access.")
        .error

/-- The `Try Again` action of the error screen: clear the error and
return to source selection; nothing else is reset. -/
def retrySelect (a : AppState) : AppState :=
  { a with error := "", state := .selectSource }

/-! ## Derived descriptions of the launch behaviour -/

/-- The subprocesses the validation stage launches for the unmount step:
one `diskutil unmountDisk` process exactly when a disk identifier can be
extracted from the path and the platform is darwin. -/
def unmountLaunch (env : Env) (p : String) : List Proc :=
  match diskMatch p with
  | some _ => if env.platform = "darwin" then [Proc.unmount] else []
  | none => []

/-- The subprocesses the shrink stage launches: the downloader first when
the tool is missing, then pishrink itself unless the download failed. -/
def pishrinkTail (env : Env) : List Proc :=
  if env.pishrinkExists then [Proc.pishrink]
  else if env.downloadCode = 0 then [Proc.download, Proc.pishrink]
  else [Proc.download]

/-! ## Concrete run configurations used for witnesses -/

/-- Component state at the moment `Start Backup` is confirmed. -/
def stBackup : AppState :=
  { initialApp with
      state := .confirm, source := "/dev/rdisk9", destination := "/tmp/out.img" }

/-- Component state at the moment `Start Restore` of a compressed image
is confirmed. -/
def stRestoreGz : AppState :=
  { initialApp with
      state := .confirm, source := "/tmp/in.img.gz", destination := "/dev/rdisk9" }

/-- Component state for a restore of an uncompressed image. -/
def stRestoreImg : AppState :=
  { initialApp with
      state := .confirm, source := "/tmp/in.img", destination := "/dev/rdisk9" }

/-- A fully successful darwin environment; the other environments below
override single outcomes. -/
def baseEnv : Env :=
  { platform := "darwin", sudoCheck := .close 0, unmountRes := .close 0,
    unmountStderr := "", sourceCheck := .close 0, copyStderr := [],
    copyRes := .close 0, pishrinkExists := true, downloadCode := 0,
    shrinkRes := .close 0 }

/-- Shrink subprocess exits 1 (e.g. pishrink on macOS without Linux
filesystem tools). -/
def envShrinkFail : Env := { baseEnv with shrinkRes := .close 1 }

/-- Privilege check exits 1. -/
def envSudoFail : Env := { baseEnv with sudoCheck := .close 1 }

/-- Copy subprocess emits one diagnostic stderr line and exits 1. -/
def envCopyFail : Env :=
  { baseEnv with
      copyStderr := ["dd: /dev/rdisk9: Resource busy"], copyRes := .close 1 }

/-- Copy subprocess emits a whitespace-only stderr chunk and exits 1. -/
def envCopyFailBlank : Env :=
  { baseEnv with copyStderr := ["\n"], copyRes := .close 1 }

/-- Unmount subprocess fails to launch. -/
def envUnmountGone : Env := { baseEnv with unmountRes := .failed "ENOENT" }

/-- A Linux environment (no identifier-based unmount mechanism). -/
def envLinux : Env := { baseEnv with platform := "linux" }

/-- First run of the metric-reset scenario: one progress chunk of one
mebibyte is parsed, then the copy fails. -/
def envRunOne : Env :=
  { baseEnv with
    copyStderr := ["1048576 bytes (1.0 MB) copied, 1 s, 1.0 MB/s"],
    copyRes := .close 1 }

/-- Second run of the metric-reset scenario: the copy stage is entered
but no progress chunk has arrived yet. -/
def envRunTwo : Env := { baseEnv with copyStderr := [], copyRes := .close 1 }

/-- A progress chunk of the shape `"<N> bytes ... copied ... <R> MB/s"`:
the digit group `ds`, free text `mid`, elapsed-seconds text `ts`, the
rate number `rs` and arbitrary trailing text `tail`, glued with dd's
punctuation. -/
def ddChunk (ds mid ts rs tail : List Char) : String :=
  String.mk (ds ++ ([' ', 'b', 'y', 't', 'e', 's', ' '] ++ (mid ++
    (['c', 'o', 'p', 'i', 'e', 'd', ',', ' '] ++ (ts ++ ([' ', 's', ',', ' '] ++
      (rs ++ (' ' :: 'M' :: 'B' :: '/' :: 's' :: tail))))))))

/-! ## Projection lemmas for the run primitives -/

@[simp] lemma setStateR_app_state (r : Run) (s : JState) :
    (setStateR r s).app.state = s := rfl

@[simp] lemma setStateR_visited (r : Run) (s : JState) :
    (setStateR r s).visited = r.visited ++ [s] := rfl

@[simp] lemma setStateR_launched (r : Run) (s : JState) :
    (setStateR r s).launched = r.launched := rfl

@[simp] lemma setStateR_app_bytes (r : Run) (s : JState) :
    (setStateR r s).app.bytesWritten = r.app.bytesWritten := rfl

@[simp] lemma setStateR_app_error (r : Run) (s : JState) :
    (setStateR r s).app.error = r.app.error := rfl

@[simp] lemma setStateR_app_source (r : Run) (s : JState) :
    (setStateR r s).app.source = r.app.source := rfl

@[simp] lemma setErrR_app_state (r : Run) (m : String) :
    (setErrR r m).app.state = r.app.state := rfl

@[simp] lemma setErrR_visited (r : Run) (m : String) :
    (setErrR r m).visited = r.visited := rfl

@[simp] lemma setErrR_launched (r : Run) (m : String) :
    (setErrR r m).launched = r.launched := rfl

@[simp] lemma setErrR_app_error (r : Run) (m : String) :
    (setErrR r m).app.error = m := rfl

@[simp] lemma setErrR_app_bytes (r : Run) (m : String) :
    (setErrR r m).app.bytesWritten = r.app.bytesWritten := rfl

@[simp] lemma setErrR_app_source (r : Run) (m : String) :
    (setErrR r m).app.source = r.app.source := rfl

@[simp] lemma addLogR_app_state (r : Run) (m : String) :
    (addLogR r m).app.state = r.app.state := rfl

@[simp] lemma addLogR_visited (r : Run) (m : String) :
    (addLogR r m).visited = r.visited := rfl

@[simp] lemma addLogR_launched (r : Run) (m : String) :
    (addLogR r m).launched = r.launched := rfl

@[simp] lemma addLogR_app_bytes (r : Run) (m : String) :
    (addLogR r m).app.bytesWritten = r.app.bytesWritten := rfl

@[simp] lemma addLogR_app_error (r : Run) (m : String) :
    (addLogR r m).app.error = r.app.error := rfl

@[simp] lemma addLogR_app_source (r : Run) (m : String) :
    (addLogR r m).app.source = r.app.source := rfl

@[simp] lemma launch_app (r : Run) (p : Proc) : (launch r p).app = r.app := rfl

@[simp] lemma launch_visited (r : Run) (p : Proc) :
    (launch r p).visited = r.visited := rfl

@[simp] lemma launch_launched (r : Run) (p : Proc) :
    (launch r p).launched = r.launched ++ [p] := rfl

/-! ## Stage lemmas for the shrink pipeline -/

lemma runShrinkStep_app_state (env : Env) (r : Run) :
    (runShrinkStep env r).app.state = .complete := by
  unfold runShrinkStep
  cases env.shrinkRes with
  | close c =>
    by_cases hc : c = 0 <;> simp [hc]
  | failed m => simp

lemma runShrinkStep_visited (env : Env) (r : Run) :
    (runShrinkStep env r).visited = r.visited ++ [.complete] := by
  unfold runShrinkStep
  cases env.shrinkRes with
  | close c => by_cases hc : c = 0 <;> simp [hc]
  | failed m => simp

lemma runShrinkStep_launched (env : Env) (r : Run) :
    (runShrinkStep env r).launched = r.launched ++ [.pishrink] := by
  unfold runShrinkStep
  cases env.shrinkRes with
  | close c => by_cases hc : c = 0 <;> simp [hc]
  | failed m => simp

lemma runShrinkStep_app_bytes (env : Env) (r : Run) :
    (runShrinkStep env r).app.bytesWritten = r.app.bytesWritten := by
  unfold runShrinkStep
  cases env.shrinkRes with
  | close c => by_cases hc : c = 0 <;> simp [hc]
  | failed m => simp

lemma runPishrink_app_state (env : Env) (r : Run) :
    (runPishrink env r).app.state = .complete := by
  unfold runPishrink
  by_cases he : env.pishrinkExists <;> by_cases hd : env.downloadCode = 0 <;>
    simp [he, hd, runShrinkStep_app_state]

lemma runPishrink_visited (env : Env) (r : Run) :
    (runPishrink env r).visited = r.visited ++ [.shrinking, .complete] := by
  unfold runPishrink
  by_cases he : env.pishrinkExists <;> by_cases hd : env.downloadCode = 0 <;>
    simp [he, hd, runShrinkStep_visited]

lemma runPishrink_launched (env : Env) (r : Run) :
    (runPishrink env r).launched = r.launched ++ pishrinkTail env := by
  unfold runPishrink pishrinkTail
  by_cases he : env.pishrinkExists <;> by_cases hd : env.downloadCode = 0 <;>
    simp [he, hd, runShrinkStep_launched]

lemma runPishrink_app_bytes (env : Env) (r : Run) :
    (runPishrink env r).app.bytesWritten = r.app.bytesWritten := by
  unfold runPishrink
  by_cases he : env.pishrinkExists <;> by_cases hd : env.downloadCode = 0 <;>
    simp [he, hd, runShrinkStep_app_bytes]

/-! ## Fold lemmas for the stderr chunk stream -/

lemma foldl_processChunk_snd (chunks : List String) (a : AppState) (le : String) :
    (chunks.foldl processChunk (a, le)).2 = chunks.foldl lastErrStep le := by
  induction chunks generalizing a le with
  | nil => rfl
  | cons c cs ih => exact ih (chunkApp a c) (lastErrStep le c)

lemma foldl_lastErrStep_eq (chunks : List String) (le : String) :
    chunks.foldl lastErrStep le =
      (match lastNonProgress chunks with
       | some c => trimS c
       | none => le) := by
  induction chunks generalizing le with
  | nil => rfl
  | cons c cs ih =>
    show cs.foldl lastErrStep (lastErrStep le c) = _
    rw [ih]
    unfold lastNonProgress
    rw [List.filter_cons]
    by_cases hc : isErrorLine c
    · simp only [hc, if_true, lastErrStep]
      cases hcs : cs.filter (fun x => isErrorLine x) with
      | nil => simp [hcs, hc]
      | cons d ds =>
        simp only [hcs, List.getLast?_cons_cons]
        cases h2 : (d :: ds).getLast? with
        | some x => simp
        | none => simp at h2
    · simp only [hc, if_false, lastErrStep]
      simp [hc]

/-! ## Stage lemmas for the copy and validation stages -/

lemma runBackup_app_state_of_copyOk (env : Env) (r : Run)
    (hc : env.copyRes = .close 0) :
    (runBackup env r).app.state = .complete := by
  unfold runBackup
  rw [hc]
  simp [runPishrink_app_state]

lemma runBackup_visited_of_copyOk (env : Env) (r : Run)
    (hc : env.copyRes = .close 0) :
    (runBackup env r).visited = r.visited ++ [.backingUp, .shrinking, .complete] := by
  unfold runBackup
  rw [hc]
  simp [runPishrink_visited]

lemma runBackup_launched_of_copyOk (env : Env) (r : Run)
    (hc : env.copyRes = .close 0) :
    (runBackup env r).launched = r.launched ++ Proc.ddCopy :: pishrinkTail env := by
  unfold runBackup
  rw [hc]
  simp [runPishrink_launched]

lemma runBackup_app_state_of_copyFail (env : Env) (r : Run) (c : Int)
    (hc : env.copyRes = .close c) (hne : c ≠ 0) :
    (runBackup env r).app.state = .error := by
  unfold runBackup
  rw [hc]
  simp [hne]

lemma runBackup_app_error_of_copyFail (env : Env) (r : Run) (c : Int)
    (hc : env.copyRes = .close c) (hne : c ≠ 0) :
    (runBackup env r).app.error =
      "dd failed: " ++
        (if env.copyStderr.foldl lastErrStep "" = ""
         then "exit code " ++ toString c
         else env.copyStderr.foldl lastErrStep "") := by
  unfold runBackup
  rw [hc]
  simp only [foldl_processChunk_snd]
  simp [hne, foldl_processChunk_snd]

lemma runBackup_launched_of_copyFail (env : Env) (r : Run) (c : Int)
    (hc : env.copyRes = .close c) (hne : c ≠ 0) :
    (runBackup env r).launched = r.launched ++ [Proc.ddCopy] := by
  unfold runBackup
  rw [hc]
  simp [hne]

lemma runBackup_visited_of_copyFail (env : Env) (r : Run) (c : Int)
    (hc : env.copyRes = .close c) (hne : c ≠ 0) :
    (runBackup env r).visited = r.visited ++ [.backingUp, .error] := by
  unfold runBackup
  rw [hc]
  simp [hne]

lemma runBackup_app_bytes_of_noChunks (env : Env) (r : Run)
    (hch : env.copyStderr = []) :
    (runBackup env r).app.bytesWritten = r.app.bytesWritten := by
  unfold runBackup
  rw [hch]
  cases hc : env.copyRes with
  | close c => by_cases hz : c = 0 <;> simp [hz, runPishrink_app_bytes]
  | failed m => simp

lemma checkSourceAndBackup_eq_of_sourceOk (env : Env) (r : Run)
    (h : env.sourceCheck = .close 0) :
    checkSourceAndBackup env r =
      runBackup env (launch (addLogR r "Checking source device...") .sourceCheck) := by
  unfold checkSourceAndBackup
  rw [h]
  simp

lemma runBackup_visited_general (env : Env) (r : Run) :
    ∃ t, (runBackup env r).visited = r.visited ++ JState.backingUp :: t := by
  unfold runBackup
  cases hc : env.copyRes with
  | close c =>
    by_cases hz : c = 0
    · exact ⟨[.shrinking, .complete], by simp [hz, runPishrink_visited]⟩
    · exact ⟨[.error], by simp [hz]⟩
  | failed m => exact ⟨[.error], by simp⟩

lemma unmount_notin_pishrinkTail (env : Env) :
    Proc.unmount ∉ pishrinkTail env := by
  unfold pishrinkTail
  by_cases he : env.pishrinkExists <;> by_cases hd : env.downloadCode = 0 <;>
    simp [he, hd]

lemma runBackup_launched_tail (env : Env) (r : Run) :
    ∃ t, (runBackup env r).launched = r.launched ++ t ∧ Proc.unmount ∉ t := by
  unfold runBackup
  cases hc : env.copyRes with
  | close c =>
    by_cases hz : c = 0
    · refine ⟨Proc.ddCopy :: pishrinkTail env, by simp [hz, runPishrink_launched], ?_⟩
      simp [unmount_notin_pishrinkTail]
    · exact ⟨[Proc.ddCopy], by simp [hz], by simp⟩
  | failed m => exact ⟨[Proc.ddCopy], by simp, by simp⟩

lemma checkSourceAndBackup_launched_tail (env : Env) (r : Run) :
    ∃ t, (checkSourceAndBackup env r).launched = r.launched ++ t ∧
      Proc.unmount ∉ t := by
  unfold checkSourceAndBackup
  cases hsc : env.sourceCheck with
  | close c =>
    by_cases hz : c = 0
    · obtain ⟨t, ht, hmem⟩ :=
        runBackup_launched_tail env (launch (addLogR r "Checking source device...") .sourceCheck)
      refine ⟨Proc.sourceCheck :: t, ?_, by simp [hmem]⟩
      simp only [hz, if_true]
      simp at ht
      simp [ht]
    · exact ⟨[Proc.sourceCheck], by simp [hz], by simp⟩
  | failed m => exact ⟨[Proc.sourceCheck], by simp, by simp⟩

lemma checkSourceAndBackup_app_bytes_of_noChunks (env : Env) (r : Run)
    (hch : env.copyStderr = []) :
    (checkSourceAndBackup env r).app.bytesWritten = r.app.bytesWritten := by
  unfold checkSourceAndBackup
  cases hsc : env.sourceCheck with
  | close c =>
    by_cases hz : c = 0 <;> simp [hz, runBackup_app_bytes_of_noChunks env _ hch]
  | failed m => simp

lemma runRestore_launched (env : Env) (r : Run) :
    (runRestore env r).launched = r.launched ++
      [if endsWithGz r.app.source then Proc.gunzipDd else Proc.ddCopy] := by
  unfold runRestore
  by_cases hg : endsWithGz r.app.source = true
  all_goals
    cases hc : env.copyRes with
    | close c =>
      by_cases hz : c = 0 <;> simp [hg, hz, Bool.not_eq_true] at *
    | failed m => simp [hg]

lemma runRestore_app_state_of_copyOk (env : Env) (r : Run)
    (hc : env.copyRes = .close 0) :
    (runRestore env r).app.state = .complete := by
  unfold runRestore
  rw [hc]
  by_cases hg : endsWithGz r.app.source = true <;> simp [hg]

lemma runRestore_visited_of_copyOk (env : Env) (r : Run)
    (hc : env.copyRes = .close 0) :
    (runRestore env r).visited = r.visited ++ [.restoring, .complete] := by
  unfold runRestore
  rw [hc]
  by_cases hg : endsWithGz r.app.source = true <;> simp [hg]

lemma runRestore_visited_general (env : Env) (r : Run) :
    ∃ t, (runRestore env r).visited = r.visited ++ JState.restoring :: t := by
  unfold runRestore
  by_cases hg : endsWithGz r.app.source = true
  all_goals
    cases hc : env.copyRes with
    | close c =>
      by_cases hz : c = 0
      · exact ⟨[.complete], by simp [hg, hz]⟩
      · exact ⟨[.error], by simp [hg, hz]⟩
    | failed m => exact ⟨[.error], by simp [hg]⟩


lemma validateAndBackup_eq_check (env : Env) (st : AppState)
    (hs : env.sudoCheck = .close 0) :
    ∃ r : Run, validateAndBackup env st = checkSourceAndBackup env r ∧
      r.app.state = .validating ∧ r.app.source = st.source ∧
      r.app.destination = st.destination ∧
      r.app.bytesWritten = st.bytesWritten ∧
      r.visited = [.validating] ∧
      r.launched = Proc.sudoCheck :: unmountLaunch env st.source := by
  unfold validateAndBackup
  rw [hs]
  cases hd : diskMatch st.source with
  | none =>
    refine ⟨_, rfl, ?_, ?_, ?_, ?_, ?_, ?_⟩ <;>
      simp [unmountLaunch, hd, setStateR, addLogR, addLogA, launch]
  | some dn =>
    by_cases hp : env.platform = "darwin"
    · cases hu : env.unmountRes with
      | close uc =>
        by_cases hz : uc = 0
        · simp only [hp, hz, reduceIte]
          refine ⟨_, rfl, ?_, ?_, ?_, ?_, ?_, ?_⟩ <;>
            simp [unmountLaunch, hd, hp, setStateR, addLogR, addLogA, launch]
        · simp only [hp, hz, reduceIte]
          refine ⟨_, rfl, ?_, ?_, ?_, ?_, ?_, ?_⟩ <;>
            simp [unmountLaunch, hd, hp, setStateR, addLogR, addLogA, launch]
      | failed m =>
        simp only [hp, reduceIte]
        refine ⟨_, rfl, ?_, ?_, ?_, ?_, ?_, ?_⟩ <;>
          simp [unmountLaunch, hd, hp, setStateR, addLogR, addLogA, launch]
    · simp only [hp, reduceIte]
      refine ⟨_, rfl, ?_, ?_, ?_, ?_, ?_, ?_⟩ <;>
        simp [unmountLaunch, hd, hp, setStateR, addLogR, addLogA, launch]

lemma validateAndRestore_eq_run (env : Env) (st : AppState)
    (hs : env.sudoCheck = .close 0) :
    ∃ r : Run, validateAndRestore env st = runRestore env r ∧
      r.app.state = .validating ∧ r.app.source = st.source ∧
      r.app.destination = st.destination ∧
      r.app.bytesWritten = st.bytesWritten ∧
      r.visited = [.validating] ∧
      r.launched = Proc.sudoCheck :: unmountLaunch env st.destination := by
  unfold validateAndRestore
  rw [hs]
  cases hd : diskMatch st.destination with
  | none =>
    refine ⟨_, rfl, ?_, ?_, ?_, ?_, ?_, ?_⟩ <;>
      simp [unmountLaunch, hd, setStateR, addLogR, addLogA, launch]
  | some dn =>
    by_cases hp : env.platform = "darwin"
    · cases hu : env.unmountRes with
      | close uc =>
        by_cases hz : uc = 0
        · simp only [hp, hz, reduceIte]
          refine ⟨_, rfl, ?_, ?_, ?_, ?_, ?_, ?_⟩ <;>
            simp [unmountLaunch, hd, hp, setStateR, addLogR, addLogA, launch]
        · simp only [hp, hz, reduceIte]
          refine ⟨_, rfl, ?_, ?_, ?_, ?_, ?_, ?_⟩ <;>
            simp [unmountLaunch, hd, hp, setStateR, addLogR, addLogA, launch]
      | failed m =>
        simp only [hp, reduceIte]
        refine ⟨_, rfl, ?_, ?_, ?_, ?_, ?_, ?_⟩ <;>
          simp [unmountLaunch, hd, hp, setStateR, addLogR, addLogA, launch]
    · simp only [hp, reduceIte]
      refine ⟨_, rfl, ?_, ?_, ?_, ?_, ?_, ?_⟩ <;>
        simp [unmountLaunch, hd, hp, setStateR, addLogR, addLogA, launch]

lemma validateAndBackup_of_sudoFail (env : Env) (st : AppState) (c : Int)
    (hs : env.sudoCheck = .close c) (hne : c ≠ 0) :
    (validateAndBackup env st).app.state = .error ∧
      (validateAndBackup env st).app.error =
        "sudo authentication failed. Please run with sudo access." ∧
      (validateAndBackup env st).launched = [Proc.sudoCheck] ∧
      (validateAndBackup env st).visited = [.validating, .error] := by
  unfold validateAndBackup
  rw [hs]
  simp [hne, setStateR, addLogR, addLogA, launch, setErrR]

lemma validateAndRestore_of_sudoFail (env : Env) (st : AppState) (c : Int)
    (hs : env.sudoCheck = .close c) (hne : c ≠ 0) :
    (validateAndRestore env st).app.state = .error ∧
      (validateAndRestore env st).app.error =
        "sudo authentication failed. Please run with sudo access." ∧
      (validateAndRestore env st).launched = [Proc.sudoCheck] ∧
      (validateAndRestore env st).visited = [.validating, .error] := by
  unfold validateAndRestore
  rw [hs]
  simp [hne, setStateR, addLogR, addLogA, launch, setErrR]

lemma validateAndBackup_happy (env : Env) (st : AppState)
    (hs : env.sudoCheck = .close 0) (hsc : env.sourceCheck = .close 0)
    (hc : env.copyRes = .close 0) :
    (validateAndBackup env st).visited =
      [.validating, .backingUp, .shrinking, .complete] ∧
    (validateAndBackup env st).app.state = .complete := by
  obtain ⟨r, heq, _, _, _, _, hv, _⟩ := validateAndBackup_eq_check env st hs
  rw [heq, checkSourceAndBackup_eq_of_sourceOk env r hsc]
  refine ⟨?_, runBackup_app_state_of_copyOk _ _ hc⟩
  rw [runBackup_visited_of_copyOk _ _ hc]
  simp [hv]

lemma validateAndRestore_happy (env : Env) (st : AppState)
    (hs : env.sudoCheck = .close 0) (hc : env.copyRes = .close 0) :
    (validateAndRestore env st).visited = [.validating, .restoring, .complete] ∧
    (validateAndRestore env st).app.state = .complete := by
  obtain ⟨r, heq, _, _, _, _, hv, _⟩ := validateAndRestore_eq_run env st hs
  rw [heq]
  refine ⟨?_, runRestore_app_state_of_copyOk _ _ hc⟩
  rw [runRestore_visited_of_copyOk _ _ hc]
  simp [hv]

lemma validateAndBackup_of_copyFail (env : Env) (st : AppState) (c : Int)
    (hs : env.sudoCheck = .close 0) (hsc : env.sourceCheck = .close 0)
    (hc : env.copyRes = .close c) (hne : c ≠ 0) :
    (validateAndBackup env st).app.state = .error ∧
    (validateAndBackup env st).app.error =
      "dd failed: " ++
        (if env.copyStderr.foldl lastErrStep "" = ""
         then "exit code " ++ toString c
         else env.copyStderr.foldl lastErrStep "") := by
  obtain ⟨r, heq, _, _, _, _, _, _⟩ := validateAndBackup_eq_check env st hs
  rw [heq, checkSourceAndBackup_eq_of_sourceOk env r hsc]
  exact ⟨runBackup_app_state_of_copyFail _ _ _ hc hne,
    runBackup_app_error_of_copyFail _ _ _ hc hne⟩

lemma validateAndBackup_reach (env : Env) (st : AppState)
    (hs : env.sudoCheck = .close 0) (hsc : env.sourceCheck = .close 0) :
    JState.backingUp ∈ (validateAndBackup env st).visited := by
  obtain ⟨r, heq, _, _, _, _, hv, _⟩ := validateAndBackup_eq_check env st hs
  rw [heq, checkSourceAndBackup_eq_of_sourceOk env r hsc]
  obtain ⟨t, ht⟩ := runBackup_visited_general env
    (launch (addLogR r "Checking source device...") .sourceCheck)
  rw [ht]
  simp

lemma validateAndRestore_reach (env : Env) (st : AppState)
    (hs : env.sudoCheck = .close 0) :
    JState.restoring ∈ (validateAndRestore env st).visited := by
  obtain ⟨r, heq, _, _, _, _, hv, _⟩ := validateAndRestore_eq_run env st hs
  rw [heq]
  obtain ⟨t, ht⟩ := runRestore_visited_general env r
  rw [ht]
  simp

lemma unmountLaunch_eq_nil (env : Env) (p : String)
    (hnd : diskMatch p = none ∨ env.platform ≠ "darwin") :
    unmountLaunch env p = [] := by
  unfold unmountLaunch
  rcases hnd with h | h
  · rw [h]
  · cases hd : diskMatch p with
    | none => rfl
    | some dn => simp [h]

lemma validateAndBackup_unmount_not (env : Env) (st : AppState)
    (hnd : diskMatch st.source = none ∨ env.platform ≠ "darwin") :
    Proc.unmount ∉ (validateAndBackup env st).launched := by
  cases hse : env.sudoCheck with
  | failed m =>
    unfold validateAndBackup
    rw [hse]
    simp [setStateR, setErrR, addLogR, launch]
  | close c =>
    by_cases hz : c = 0
    · subst hz
      obtain ⟨r, heq, _, _, _, _, _, hl⟩ := validateAndBackup_eq_check env st hse
      rw [heq]
      obtain ⟨t, ht, hm⟩ := checkSourceAndBackup_launched_tail env r
      rw [ht, hl, unmountLaunch_eq_nil env st.source hnd]
      simp [hm]
    · rw [(validateAndBackup_of_sudoFail env st c hse hz).2.2.1]
      simp

lemma validateAndRestore_launched_eq (env : Env) (st : AppState)
    (hs : env.sudoCheck = .close 0) :
    (validateAndRestore env st).launched =
      Proc.sudoCheck :: (unmountLaunch env st.destination ++
        [if endsWithGz st.source then Proc.gunzipDd else Proc.ddCopy]) := by
  obtain ⟨r, heq, _, hsrc, _, _, _, hl⟩ := validateAndRestore_eq_run env st hs
  rw [heq, runRestore_launched, hl, hsrc]
  simp

lemma unmountLaunch_cases (env : Env) (p : String) :
    unmountLaunch env p = [] ∨ unmountLaunch env p = [Proc.unmount] := by
  unfold unmountLaunch
  cases hd : diskMatch p with
  | none => exact Or.inl rfl
  | some dn =>
    by_cases hp : env.platform = "darwin"
    · exact Or.inr (by simp [hp])
    · exact Or.inl (by simp [hp])

lemma validateAndRestore_unmount_not (env : Env) (st : AppState)
    (hnd : diskMatch st.destination = none ∨ env.platform ≠ "darwin") :
    Proc.unmount ∉ (validateAndRestore env st).launched := by
  cases hse : env.sudoCheck with
  | failed m =>
    unfold validateAndRestore
    rw [hse]
    simp [setStateR, setErrR, addLogR, launch]
  | close c =>
    by_cases hz : c = 0
    · subst hz
      rw [validateAndRestore_launched_eq env st hse,
        unmountLaunch_eq_nil env st.destination hnd]
      by_cases hg : endsWithGz st.source = true <;> simp [hg]
    · rw [(validateAndRestore_of_sudoFail env st c hse hz).2.2.1]
      simp

lemma validateAndBackup_bytes_of_noChunks (env : Env) (st : AppState)
    (hch : env.copyStderr = []) :
    (validateAndBackup env st).app.bytesWritten = st.bytesWritten := by
  cases hse : env.sudoCheck with
  | failed m =>
    unfold validateAndBackup
    rw [hse]
    simp [setStateR, setErrR, addLogR, launch, addLogA]
  | close c =>
    by_cases hz : c = 0
    · subst hz
      obtain ⟨r, heq, _, _, _, hb, _, _⟩ := validateAndBackup_eq_check env st hse
      rw [heq, checkSourceAndBackup_app_bytes_of_noChunks env r hch, hb]
    · unfold validateAndBackup
      rw [hse]
      simp [hz, setStateR, setErrR, addLogR, launch, addLogA]

/-! ## Claims -/

/-- C1: for every shrink-stage outcome — the shrink subprocess exits
with any nonzero code, fails to launch, or the tool is missing and its
download fails — a Backup operation whose copy stage completed reaches
`Completed` and never `Errored`.  The environment quantifies over every
shrink outcome (`shrinkRes`, `pishrinkExists`, `downloadCode`). -/
theorem claim_c1 (env : Env) (st : AppState)
    (hs : env.sudoCheck = .close 0) (hsc : env.sourceCheck = .close 0)
    (hc : env.copyRes = .close 0) :
    (validateAndBackup env st).app.state = .complete ∧
    JState.error ∉ (validateAndBackup env st).visited := by
  obtain ⟨hv, hst⟩ := validateAndBackup_happy env st hs hsc hc
  refine ⟨hst, ?_⟩
  rw [hv]
  decide

/-- C1 witness: a concrete backup in which pishrink exits 1 still ends
in `Completed` without ever visiting `Errored`. -/
theorem claim_c1_witness :
    (validateAndBackup envShrinkFail stBackup).app.state = .complete ∧
    JState.error ∉ (validateAndBackup envShrinkFail stBackup).visited :=
  claim_c1 envShrinkFail stBackup rfl rfl rfl

/-- C2: on copy exit 0 a Backup transitions from `Copying` to
`Shrinking` (never directly to `Completed`), and a Restore transitions
to `Completed` and never enters `Shrinking`: the full state traces are
`[Validating, Copying, Shrinking, Completed]` and
`[Validating, Copying, Completed]` respectively. -/
theorem claim_c2 (envB envR : Env) (stB stR : AppState)
    (hsB : envB.sudoCheck = .close 0) (hscB : envB.sourceCheck = .close 0)
    (hcB : envB.copyRes = .close 0)
    (hsR : envR.sudoCheck = .close 0) (hcR : envR.copyRes = .close 0) :
    (validateAndBackup envB stB).visited =
      [.validating, .backingUp, .shrinking, .complete] ∧
    (validateAndRestore envR stR).visited =
      [.validating, .restoring, .complete] ∧
    JState.shrinking ∉ (validateAndRestore envR stR).visited := by
  obtain ⟨hvB, _⟩ := validateAndBackup_happy envB stB hsB hscB hcB
  obtain ⟨hvR, _⟩ := validateAndRestore_happy envR stR hsR hcR
  refine ⟨hvB, hvR, ?_⟩
  rw [hvR]
  decide

/-- C2 witness: concrete successful backup and compressed restore. -/
theorem claim_c2_witness :
    (validateAndBackup baseEnv stBackup).visited =
      [.validating, .backingUp, .shrinking, .complete] ∧
    (validateAndRestore baseEnv stRestoreGz).visited =
      [.validating, .restoring, .complete] ∧
    JState.shrinking ∉ (validateAndRestore baseEnv stRestoreGz).visited :=
  claim_c2 baseEnv baseEnv stBackup stRestoreGz rfl rfl rfl rfl rfl

/-- C3: a nonzero privilege-check exit moves the operation (backup or
restore) straight to `Errored` with the reason containing
`authentication failed`, and the only subprocess ever launched in that
run is the privilege check itself — no unmount and no copy process. -/
theorem claim_c3 (envB envR : Env) (stB stR : AppState) (cB cR : Int)
    (hsB : envB.sudoCheck = .close cB) (hB : cB ≠ 0)
    (hsR : envR.sudoCheck = .close cR) (hR : cR ≠ 0) :
    ((validateAndBackup envB stB).app.state = .error ∧
      containsStr "authentication failed"
        (validateAndBackup envB stB).app.error = true ∧
      (validateAndBackup envB stB).launched = [Proc.sudoCheck] ∧
      Proc.unmount ∉ (validateAndBackup envB stB).launched ∧
      Proc.ddCopy ∉ (validateAndBackup envB stB).launched) ∧
    ((validateAndRestore envR stR).app.state = .error ∧
      containsStr "authentication failed"
        (validateAndRestore envR stR).app.error = true ∧
      (validateAndRestore envR stR).launched = [Proc.sudoCheck] ∧
      Proc.ddCopy ∉ (validateAndRestore envR stR).launched ∧
      Proc.gunzipDd ∉ (validateAndRestore envR stR).launched) := by
  obtain ⟨hstB, heB, hlB, _⟩ := validateAndBackup_of_sudoFail envB stB cB hsB hB
  obtain ⟨hstR, heR, hlR, _⟩ := validateAndRestore_of_sudoFail envR stR cR hsR hR
  refine ⟨⟨hstB, ?_, hlB, ?_, ?_⟩, ⟨hstR, ?_, hlR, ?_, ?_⟩⟩ <;>
    first
      | (rw [heB]; decide)
      | (rw [heR]; decide)
      | (rw [hlB]; decide)
      | (rw [hlR]; decide)

/-- C3 witness: privilege check exiting 1 on both pipelines. -/
theorem claim_c3_witness :
    ((validateAndBackup envSudoFail stBackup).app.state = .error ∧
      containsStr "authentication failed"
        (validateAndBackup envSudoFail stBackup).app.error = true ∧
      (validateAndBackup envSudoFail stBackup).launched = [Proc.sudoCheck] ∧
      Proc.unmount ∉ (validateAndBackup envSudoFail stBackup).launched ∧
      Proc.ddCopy ∉ (validateAndBackup envSudoFail stBackup).launched) ∧
    ((validateAndRestore envSudoFail stRestoreGz).app.state = .error ∧
      containsStr "authentication failed"
        (validateAndRestore envSudoFail stRestoreGz).app.error = true ∧
      (validateAndRestore envSudoFail stRestoreGz).launched = [Proc.sudoCheck] ∧
      Proc.ddCopy ∉ (validateAndRestore envSudoFail stRestoreGz).launched ∧
      Proc.gunzipDd ∉ (validateAndRestore envSudoFail stRestoreGz).launched) :=
  claim_c3 envSudoFail envSudoFail stBackup stRestoreGz 1 1 rfl (by decide) rfl
    (by decide)

/-- C4 counterexample: the claim says the reason falls back to
exit-code text only when no non-progress chunk was observed; but a
whitespace-only stderr chunk (a bare newline, a realistic chunk
boundary) IS classified as non-progress, trims to the empty string, and
the `lastError || ...` fallback then produces the exit-code text
anyway, so the reason is neither the trimmed chunk nor covered by the
claim's fallback condition. -/
theorem claim_c4_counterexample :
    isErrorLine "\n" = true ∧
    envCopyFailBlank.copyStderr = ["\n"] ∧
    envCopyFailBlank.copyRes = .close 1 ∧
    (validateAndBackup envCopyFailBlank stBackup).app.error =
      "dd failed: exit code 1" ∧
    "dd failed: exit code 1" ≠ "dd failed: " ++ trimS "\n" := by
  refine ⟨by decide, rfl, rfl, ?_, by decide⟩
  decide

/-- C4 (amended): when the copy subprocess exits nonzero the operation
enters `Errored`; the reason is the last non-progress stderr chunk,
trimmed, whenever that trimmed text is nonempty; the reason falls back
to text derived from the raw exit code when no non-progress chunk was
observed or when the last one trimmed to the empty string. -/
theorem claim_c4_amended (env : Env) (st : AppState) (c : Int)
    (hs : env.sudoCheck = .close 0) (hsc : env.sourceCheck = .close 0)
    (hc : env.copyRes = .close c) (hne : c ≠ 0) :
    (validateAndBackup env st).app.state = .error ∧
    (lastNonProgress env.copyStderr = none →
      (validateAndBackup env st).app.error = "dd failed: exit code " ++ toString c) ∧
    (∀ ch, lastNonProgress env.copyStderr = some ch → trimS ch ≠ "" →
      (validateAndBackup env st).app.error = "dd failed: " ++ trimS ch) ∧
    (∀ ch, lastNonProgress env.copyStderr = some ch → trimS ch = "" →
      (validateAndBackup env st).app.error = "dd failed: exit code " ++ toString c) := by
  obtain ⟨hst, herr⟩ := validateAndBackup_of_copyFail env st c hs hsc hc hne
  rw [foldl_lastErrStep_eq] at herr
  refine ⟨hst, ?_, ?_, ?_⟩
  · intro hn
    rw [herr, hn]
    simp [← String.append_assoc]
  · intro ch hch hne2
    rw [herr, hch]
    simp [hne2]
  · intro ch hch he
    rw [herr, hch]
    simp [he, ← String.append_assoc]

/-- C4 witness: the scenario of the spec — stderr consists of the
single line `dd: /dev/rdisk9: Resource busy`, dd exits 1, and the
failure text carries exactly that line. -/
theorem claim_c4_amended_witness :
    (validateAndBackup envCopyFail stBackup).app.state = .error ∧
    (validateAndBackup envCopyFail stBackup).app.error =
      "dd failed: dd: /dev/rdisk9: Resource busy" :=
  ⟨(claim_c4_amended envCopyFail stBackup 1 rfl rfl rfl (by decide)).1,
   (claim_c4_amended envCopyFail stBackup 1 rfl rfl rfl (by decide)).2.2.1
     "dd: /dev/rdisk9: Resource busy" (by decide) (by decide)⟩

/-- C7: the unmount outcome never determines the fate of the pipeline —
for every unmount result (exit 0, any nonzero exit, or launch failure;
the environment quantifies over all of them) a validated backup whose
source probe passes reaches the `Copying` state, and a validated
restore always reaches it. -/
theorem claim_c7 (envB envR : Env) (stB stR : AppState)
    (hsB : envB.sudoCheck = .close 0) (hscB : envB.sourceCheck = .close 0)
    (hsR : envR.sudoCheck = .close 0) :
    JState.backingUp ∈ (validateAndBackup envB stB).visited ∧
    JState.restoring ∈ (validateAndRestore envR stR).visited :=
  ⟨validateAndBackup_reach envB stB hsB hscB,
   validateAndRestore_reach envR stR hsR⟩

/-- C7 witness: the unmount subprocess fails to launch and both
pipelines still reach their copy states. -/
theorem claim_c7_witness :
    JState.backingUp ∈ (validateAndBackup envUnmountGone stBackup).visited ∧
    JState.restoring ∈ (validateAndRestore envUnmountGone stRestoreGz).visited :=
  claim_c7 envUnmountGone envUnmountGone stBackup stRestoreGz rfl rfl rfl

/-- C8: when no disk identifier can be extracted from the relevant path
(source for Backup, destination for Restore) or the platform is not
darwin, the Unmounting step launches no unmount subprocess and the
pipeline passes straight on towards the copy state. -/
theorem claim_c8 (envB envR : Env) (stB stR : AppState)
    (hndB : diskMatch stB.source = none ∨ envB.platform ≠ "darwin")
    (hndR : diskMatch stR.destination = none ∨ envR.platform ≠ "darwin")
    (hsB : envB.sudoCheck = .close 0) (hscB : envB.sourceCheck = .close 0)
    (hsR : envR.sudoCheck = .close 0) :
    Proc.unmount ∉ (validateAndBackup envB stB).launched ∧
    JState.backingUp ∈ (validateAndBackup envB stB).visited ∧
    Proc.unmount ∉ (validateAndRestore envR stR).launched ∧
    JState.restoring ∈ (validateAndRestore envR stR).visited :=
  ⟨validateAndBackup_unmount_not envB stB hndB,
   validateAndBackup_reach envB stB hsB hscB,
   validateAndRestore_unmount_not envR stR hndR,
   validateAndRestore_reach envR stR hsR⟩

/-- C8 witness: a Linux run (backup of `/dev/sda`, restore to a path
with no extractable identifier) never launches the unmount subprocess
and reaches the copy states. -/
theorem claim_c8_witness :
    Proc.unmount ∉ (validateAndBackup envLinux
      { stBackup with source := "/dev/sda" }).launched ∧
    JState.backingUp ∈ (validateAndBackup envLinux
      { stBackup with source := "/dev/sda" }).visited ∧
    Proc.unmount ∉ (validateAndRestore envLinux stRestoreGz).launched ∧
    JState.restoring ∈ (validateAndRestore envLinux stRestoreGz).visited :=
  claim_c8 envLinux envLinux { stBackup with source := "/dev/sda" } stRestoreGz
    (by decide) (by decide) rfl rfl rfl

/-- C9: the copy stage of a validated restore launches the two-process
`gunzip | dd` pipeline exactly when the source path ends in the
recognized compressed suffix `.gz`, and the single `dd` process exactly
otherwise; the decision is a function of the source path alone (the
environment is quantified over every copy outcome and chunk stream). -/
theorem claim_c9 (env : Env) (st : AppState)
    (hs : env.sudoCheck = .close 0) :
    (Proc.gunzipDd ∈ (validateAndRestore env st).launched ↔
      endsWithGz st.source = true) ∧
    (Proc.ddCopy ∈ (validateAndRestore env st).launched ↔
      endsWithGz st.source = false) := by
  rw [validateAndRestore_launched_eq env st hs]
  rcases unmountLaunch_cases env st.destination with h | h <;>
    by_cases hg : endsWithGz st.source = true <;> simp [h, hg]

/-- C9 witness: `/tmp/in.img.gz` selects the decompressing pipeline and
`/tmp/in.img` the plain copy process. -/
theorem claim_c9_witness :
    ((Proc.gunzipDd ∈ (validateAndRestore baseEnv stRestoreGz).launched ↔
      endsWithGz stRestoreGz.source = true) ∧
     (Proc.ddCopy ∈ (validateAndRestore baseEnv stRestoreGz).launched ↔
      endsWithGz stRestoreGz.source = false)) ∧
    ((Proc.gunzipDd ∈ (validateAndRestore baseEnv stRestoreImg).launched ↔
      endsWithGz stRestoreImg.source = true) ∧
     (Proc.ddCopy ∈ (validateAndRestore baseEnv stRestoreImg).launched ↔
      endsWithGz stRestoreImg.source = false)) :=
  ⟨claim_c9 baseEnv stRestoreGz rfl, claim_c9 baseEnv stRestoreImg rfl⟩

/-- C10 counterexample: the start transition does not reset the
metrics.  A first backup parses a one-mebibyte progress chunk and
fails; the user picks `Try Again` and a second backup run reaches the
`Copying` state with `bytesWritten` still `"1.0 MB"` — not `"0"` —
although no progress chunk of the new run has been parsed
(`envRunTwo.copyStderr = []`). -/
theorem claim_c10_counterexample :
    (validateAndBackup envRunTwo
      (retrySelect (validateAndBackup envRunOne stBackup).app)).app.bytesWritten =
      "1.0 MB" ∧
    JState.backingUp ∈ (validateAndBackup envRunTwo
      (retrySelect (validateAndBackup envRunOne stBackup).app)).visited ∧
    envRunTwo.copyStderr = [] ∧ ("1.0 MB" : String) ≠ "0" := by
  refine ⟨?_, ?_, rfl, by decide⟩ <;> decide

/-- C10 (amended): `bytesWritten` is `"0"` in the initial component
state created at mount, but the start transition of a run does not
reset it: as long as no stderr chunk of the new copy stage has been
parsed, a backup run leaves `bytesWritten` exactly as it was when the
run started. -/
theorem claim_c10_amended (env : Env) (st : AppState)
    (hch : env.copyStderr = []) :
    initialApp.bytesWritten = "0" ∧
    (validateAndBackup env st).app.bytesWritten = st.bytesWritten :=
  ⟨rfl, validateAndBackup_bytes_of_noChunks env st hch⟩

/-- C10 witness: a chunkless run preserves the mount-time value. -/
theorem claim_c10_amended_witness :
    initialApp.bytesWritten = "0" ∧
    (validateAndBackup envRunTwo stBackup).app.bytesWritten =
      stBackup.bytesWritten :=
  claim_c10_amended envRunTwo stBackup rfl

/-! ## List lemmas for the scanners -/

lemma takeWhile_append_all {p : Char → Bool} {a : List Char} (b : List Char)
    (h : ∀ c ∈ a, p c = true) :
    (a ++ b).takeWhile p = a ++ b.takeWhile p := by
  induction a with
  | nil => simp
  | cons c a' ih =>
    rw [List.cons_append, List.takeWhile_cons]
    simp [h c (by simp), ih (fun d hd => h d (by simp [hd]))]

lemma dropWhile_append_all {p : Char → Bool} {a : List Char} (b : List Char)
    (h : ∀ c ∈ a, p c = true) :
    (a ++ b).dropWhile p = b.dropWhile p := by
  induction a with
  | nil => simp
  | cons c a' ih =>
    rw [List.cons_append, List.dropWhile_cons]
    simp [h c (by simp), ih (fun d hd => h d (by simp [hd]))]

lemma prefixOf_append_self (p l : List Char) : p.isPrefixOf (p ++ l) = true := by
  induction p with
  | nil => simp [List.isPrefixOf]
  | cons c p' ih => simp [List.isPrefixOf, ih]

lemma scanPred_append_right (p : List Char → Bool) (a l : List Char)
    (hne : l ≠ []) (h : p l = true) : scanPred p (a ++ l) = true := by
  induction a with
  | nil =>
    obtain ⟨c, t, rfl⟩ := List.exists_cons_of_ne_nil hne
    simp [scanPred, h]
  | cons c a' ih =>
    rw [List.cons_append]
    simp [scanPred, ih]

/-- C5: the chunk classifier flags a chunk as an error line iff it
matches neither the `bytes ... copied` pattern nor the
`records in/out` pattern; in particular every chunk containing
`records in` or `records out` (such as dd's `N+M records in` /
`N+M records out` chatter) is never classified as an error line. -/
theorem claim_c5 (chunk : String) (a b : List Char) :
    (isErrorLine chunk = true ↔
      (matchBytesCopied chunk.data = false ∧ matchRecords chunk.data = false)) ∧
    isErrorLine (String.mk (a ++
      ('r' :: 'e' :: 'c' :: 'o' :: 'r' :: 'd' :: 's' :: ' ' :: 'i' :: 'n' :: b))) =
      false ∧
    isErrorLine (String.mk (a ++
      ('r' :: 'e' :: 'c' :: 'o' :: 'r' :: 'd' :: 's' :: ' ' :: 'o' :: 'u' :: 't' :: b))) =
      false := by
  refine ⟨?_, ?_, ?_⟩
  · unfold isErrorLine isErrorLineL
    cases matchBytesCopied chunk.data <;> cases matchRecords chunk.data <;> simp
  · have hrec : matchRecords (a ++
        ('r' :: 'e' :: 'c' :: 'o' :: 'r' :: 'd' :: 's' :: ' ' :: 'i' :: 'n' :: b)) = true := by
      apply scanPred_append_right _ _ _ (by simp)
      have := prefixOf_append_self
        ['r','e','c','o','r','d','s',' ','i','n'] b
      simp at this
      simp [this]
    unfold isErrorLine isErrorLineL
    rw [show (String.mk (a ++
      ('r' :: 'e' :: 'c' :: 'o' :: 'r' :: 'd' :: 's' :: ' ' :: 'i' :: 'n' :: b))).data =
      a ++ ('r' :: 'e' :: 'c' :: 'o' :: 'r' :: 'd' :: 's' :: ' ' :: 'i' :: 'n' :: b) from rfl]
    rw [hrec]
    simp
  · have hrec : matchRecords (a ++
        ('r' :: 'e' :: 'c' :: 'o' :: 'r' :: 'd' :: 's' :: ' ' :: 'o' :: 'u' :: 't' :: b)) = true := by
      apply scanPred_append_right _ _ _ (by simp)
      have := prefixOf_append_self
        ['r','e','c','o','r','d','s',' ','o','u','t'] b
      simp at this
      simp [this]
    unfold isErrorLine isErrorLineL
    rw [show (String.mk (a ++
      ('r' :: 'e' :: 'c' :: 'o' :: 'r' :: 'd' :: 's' :: ' ' :: 'o' :: 'u' :: 't' :: b))).data =
      a ++ ('r' :: 'e' :: 'c' :: 'o' :: 'r' :: 'd' :: 's' :: ' ' :: 'o' :: 'u' :: 't' :: b) from rfl]
    rw [hrec]
    simp

/-! ## Character facts and scanner lemmas for the rate and byte regexes -/

lemma isRateChar_space : isRateChar ' ' = false := by decide

lemma isWsChar_space : isWsChar ' ' = true := by decide

lemma isWsChar_b : isWsChar 'b' = false := by decide

lemma isWsChar_s : isWsChar 's' = false := by decide

lemma isWsChar_M : isWsChar 'M' = false := by decide

lemma isDigit_space : Char.isDigit ' ' = false := by decide

lemma scanOpt_speed_skip_plain (a l : List Char)
    (h : ∀ c ∈ a, isRateChar c = false) :
    scanOpt trySpeedAt (a ++ l) = scanOpt trySpeedAt l := by
  induction a with
  | nil => simp
  | cons c a' ih =>
    have hc := h c (by simp)
    have hnone : trySpeedAt (c :: (a' ++ l)) = none := by
      unfold trySpeedAt
      simp [List.takeWhile_cons, hc]
    rw [List.cons_append]
    simp [scanOpt, hnone, ih (fun d hd => h d (by simp [hd]))]

lemma scanOpt_speed_skip_run (a l : List Char)
    (ha : ∀ c ∈ a, isRateChar c = true)
    (hl : matchUnit ((l.dropWhile isRateChar).dropWhile isWsChar) = none) :
    scanOpt trySpeedAt (a ++ l) = scanOpt trySpeedAt l := by
  induction a with
  | nil => simp
  | cons c a' ih =>
    have hc := ha c (by simp)
    have ha' : ∀ d ∈ a', isRateChar d = true := fun d hd => ha d (by simp [hd])
    have hdrop : (c :: (a' ++ l)).dropWhile isRateChar = l.dropWhile isRateChar := by
      rw [List.dropWhile_cons]
      simp [hc, dropWhile_append_all _ ha']
    have hnone : trySpeedAt (c :: (a' ++ l)) = none := by
      unfold trySpeedAt
      rw [hdrop]
      simp [List.takeWhile_cons, hc, hl]
    rw [List.cons_append]
    simp [scanOpt, hnone, ih ha']

lemma scanOpt_speed_at_run (rs tail : List Char) (hne : rs ≠ [])
    (hrs : ∀ c ∈ rs, isRateChar c = true) :
    scanOpt trySpeedAt (rs ++ (' ' :: 'M' :: 'B' :: '/' :: 's' :: tail)) =
      some (rs, ['M', 'B', '/', 's']) := by
  obtain ⟨c, rs', rfl⟩ := List.exists_cons_of_ne_nil hne
  have hrs' : ∀ d ∈ rs', isRateChar d = true := fun d hd => hrs d (by simp [hd])
  have hc := hrs c (by simp)
  have hstep : trySpeedAt ((c :: rs') ++ (' ' :: 'M' :: 'B' :: '/' :: 's' :: tail)) =
      some (c :: rs', ['M', 'B', '/', 's']) := by
    unfold trySpeedAt
    rw [takeWhile_append_all _ hrs, dropWhile_append_all _ hrs]
    simp [List.takeWhile_cons, List.dropWhile_cons, isRateChar_space,
      isWsChar_space, isWsChar_M, matchUnit]
  rw [List.cons_append]
  simp only [List.cons_append] at hstep
  simp [scanOpt, hstep]

lemma tryBytesAt_run (ds rest : List Char) (hne : ds ≠ [])
    (hds : ∀ c ∈ ds, c.isDigit = true) :
    tryBytesAt (ds ++ (' ' :: 'b' :: 'y' :: 't' :: 'e' :: 's' :: rest)) = some ds := by
  unfold tryBytesAt
  rw [takeWhile_append_all _ hds, dropWhile_append_all _ hds]
  obtain ⟨c, ds', rfl⟩ := List.exists_cons_of_ne_nil hne
  simp [List.takeWhile_cons, List.dropWhile_cons, isDigit_space, isWsChar_space,
    isWsChar_b, List.isPrefixOf]

lemma findBytesL_template (ds rest : List Char) (hne : ds ≠ [])
    (hds : ∀ c ∈ ds, c.isDigit = true) :
    findBytesL (ds ++ (' ' :: 'b' :: 'y' :: 't' :: 'e' :: 's' :: rest)) = some ds := by
  unfold findBytesL
  have h := tryBytesAt_run ds rest hne hds
  obtain ⟨c, ds', rfl⟩ := List.exists_cons_of_ne_nil hne
  rw [List.cons_append]
  simp only [List.cons_append] at h
  simp [scanOpt, h]

lemma isRateChar_of_digit {c : Char} (h : c.isDigit = true) :
    isRateChar c = true := by
  simp [isRateChar, h]

lemma matchUnit_some_slash (u : List Char) (a : List Char × List Char)
    (h : matchUnit u = some a) : '/' ∈ u.take 3 := by
  unfold matchUnit at h
  split at h <;> simp_all [List.take]

lemma matchUnit_none_of_noSlash (u : List Char)
    (h : ∀ c ∈ u.take 3, c ≠ '/') : matchUnit u = none := by
  cases hmu : matchUnit u with
  | none => rfl
  | some a => exact absurd rfl (h '/' (matchUnit_some_slash u a hmu))

lemma dropWhile_append_cons_stop (p : Char → Bool) (m : List Char) (c : Char)
    (R : List Char) (hc : p c = false) :
    (m ++ (c :: R)).dropWhile p = m.dropWhile p ++ (c :: R) := by
  induction m with
  | nil => simp [List.dropWhile_cons, hc]
  | cons d m' ih =>
    rw [List.cons_append, List.dropWhile_cons, List.dropWhile_cons]
    by_cases hd : p d <;> simp [hd, ih]

lemma mem_take_cop {c : Char} (R : List Char) (k : Nat) (hk : k ≤ 3)
    (h : c ∈ ('c' :: 'o' :: 'p' :: R).take k) : c = 'c' ∨ c = 'o' ∨ c = 'p' := by
  interval_cases k <;> simp_all [List.take]
  tauto

lemma trySpeedAt_none_noSlash (t R : List Char) (ht : ∀ c ∈ t, c ≠ '/') :
    trySpeedAt (t ++ ('c' :: 'o' :: 'p' :: R)) = none := by
  unfold trySpeedAt
  by_cases hg : ((t ++ ('c' :: 'o' :: 'p' :: R)).takeWhile isRateChar).isEmpty
  · simp [hg]
  · have h1 : (t ++ ('c' :: 'o' :: 'p' :: R)).dropWhile isRateChar =
        t.dropWhile isRateChar ++ ('c' :: 'o' :: 'p' :: R) :=
      dropWhile_append_cons_stop _ _ _ _ (by decide)
    have h2 : (t.dropWhile isRateChar ++ ('c' :: 'o' :: 'p' :: R)).dropWhile isWsChar =
        (t.dropWhile isRateChar).dropWhile isWsChar ++ ('c' :: 'o' :: 'p' :: R) :=
      dropWhile_append_cons_stop _ _ _ _ (by decide)
    have hsub : ∀ c ∈ (t.dropWhile isRateChar).dropWhile isWsChar, c ∈ t := by
      intro c hc
      have h1 : c ∈ t.dropWhile isRateChar := (List.dropWhile_sublist _).subset hc
      exact (List.dropWhile_sublist _).subset h1
    have hnone : matchUnit
        ((t.dropWhile isRateChar).dropWhile isWsChar ++ ('c' :: 'o' :: 'p' :: R)) =
        none := by
      apply matchUnit_none_of_noSlash
      intro c hc
      rw [List.take_append_eq_append_take] at hc
      rcases List.mem_append.mp hc with hcl | hcr
      · exact ht c (hsub c (List.take_subset _ _ hcl))
      · rcases mem_take_cop R _ (by omega) hcr with h | h | h <;> simp [h]
    simp [hg, h1, h2, hnone]

lemma scanOpt_cons_of_none {α : Type} (p : List Char → Option α) (c : Char)
    (l : List Char) (h : p (c :: l) = none) :
    scanOpt p (c :: l) = scanOpt p l := by
  simp [scanOpt, h]

lemma scanOpt_speed_skip_noSlash (m R : List Char) (hm : ∀ c ∈ m, c ≠ '/') :
    scanOpt trySpeedAt (m ++ (['c', 'o', 'p', 'i', 'e', 'd', ',', ' '] ++ R)) =
      scanOpt trySpeedAt (['c', 'o', 'p', 'i', 'e', 'd', ',', ' '] ++ R) := by
  induction m with
  | nil => rfl
  | cons c m' ih =>
    have ih' := ih (fun d hd => hm d (by simp [hd]))
    have hnone : trySpeedAt ((c :: m') ++
        ('c' :: 'o' :: 'p' :: ('i' :: 'e' :: 'd' :: ',' :: ' ' :: R))) = none :=
      trySpeedAt_none_noSlash (c :: m') _ hm
    simp only [List.cons_append, List.nil_append] at ih' hnone ⊢
    rw [scanOpt_cons_of_none _ _ _ hnone, ih']

lemma findSpeedL_template (ds mid ts rs tail : List Char)
    (hds : ∀ c ∈ ds, c.isDigit = true)
    (hmid : ∀ c ∈ mid, c ≠ '/')
    (hts : ∀ c ∈ ts, isRateChar c = true)
    (hrsne : rs ≠ []) (hrs : ∀ c ∈ rs, isRateChar c = true) :
    findSpeedL (ds ++ ([' ', 'b', 'y', 't', 'e', 's', ' '] ++ (mid ++
      (['c', 'o', 'p', 'i', 'e', 'd', ',', ' '] ++ (ts ++ ([' ', 's', ',', ' '] ++
        (rs ++ (' ' :: 'M' :: 'B' :: '/' :: 's' :: tail)))))))) =
      some (rs, ['M', 'B', '/', 's']) := by
  unfold findSpeedL
  rw [scanOpt_speed_skip_run ds _ (fun c hc => isRateChar_of_digit (hds c hc)) ?hl1]
  case hl1 =>
    simp [List.cons_append, List.dropWhile_cons, isRateChar_space, isWsChar_space,
      isWsChar_b, matchUnit]
  rw [scanOpt_speed_skip_plain [' ', 'b', 'y', 't', 'e', 's', ' '] _ (by decide)]
  rw [scanOpt_speed_skip_noSlash mid _ hmid]
  rw [scanOpt_speed_skip_plain ['c', 'o', 'p', 'i', 'e', 'd', ',', ' '] _ (by decide)]
  rw [scanOpt_speed_skip_run ts _ hts ?hl2]
  case hl2 =>
    simp [List.cons_append, List.dropWhile_cons, isRateChar_space, isWsChar_space,
      isWsChar_s, matchUnit]
  rw [scanOpt_speed_skip_plain [' ', 's', ',', ' '] _ (by decide)]
  exact scanOpt_speed_at_run rs tail hrsne hrs

lemma mbTenths_eq_floor (n : Nat) : mbTenths n = ⌊mbValue n * 10 + 1 / 2⌋₊ := by
  unfold mbTenths mbValue
  rw [show ((n : ℚ) / 1024 / 1024) * 10 + 1 / 2 =
      ((20 * n + 1048576 : ℕ) : ℚ) / ((2097152 : ℕ) : ℚ) by push_cast; ring]
  rw [Nat.floor_div_nat, Nat.floor_natCast]

lemma mbValue_eq_div_sq (n : Nat) : mbValue n = (n : ℚ) / 1024 ^ 2 := by
  unfold mbValue
  rw [div_div]
  norm_num

lemma mkStr_append (a b : List Char) :
    String.mk a ++ String.mk b = String.mk (a ++ b) := rfl

lemma containsStr_mk_self (rs suffix : List Char) (hne : rs ≠ []) :
    containsStr (String.mk rs) (String.mk (rs ++ suffix)) = true := by
  unfold containsStr
  obtain ⟨c, rs', rfl⟩ := List.exists_cons_of_ne_nil hne
  have h := prefixOf_append_self (c :: rs') suffix
  rw [show (String.mk ((c :: rs') ++ suffix)).data = c :: (rs' ++ suffix) from rfl]
  simp only [List.cons_append] at h
  simp [scanPred, h]


/-- C6: for every chunk of the form `"<N> bytes ... copied ... <R> MB/s"`
the parser extracts `bytes = N` (the decimal value of the digit group)
and a rate text containing `R`, and the controller's displayed megabyte
value is obtained by dividing the byte count by 1024² (the display
shows `⌊N/1024² · 10 + 1/2⌋` tenths, i.e. `toFixed(1)` of `N/1024²`).
The free text between `bytes` and `copied` is arbitrary except that it
contains no `/` — every dd progress line, including the
`(1.2 GB, 1.1 GiB)` size annotations, satisfies this; a `/` there
could form an earlier `[MGK]?B/s` match and genuinely change the
code's extracted rate. -/
theorem claim_c6 (ds mid ts rs tail : List Char) (a : AppState)
    (hdsne : ds ≠ []) (hds : ∀ c ∈ ds, c.isDigit = true)
    (hmid : ∀ c ∈ mid, c ≠ '/')
    (hts : ∀ c ∈ ts, isRateChar c = true)
    (hrsne : rs ≠ []) (hrs : ∀ c ∈ rs, isRateChar c = true) :
    findBytes (ddChunk ds mid ts rs tail) = some (digitsToNat ds) ∧
    findSpeed (ddChunk ds mid ts rs tail) = some (String.mk rs ++ " MB/s") ∧
    (chunkApp a (ddChunk ds mid ts rs tail)).bytesWritten =
      mbDisplay (digitsToNat ds) ∧
    (chunkApp a (ddChunk ds mid ts rs tail)).speed = String.mk rs ++ " MB/s" ∧
    containsStr (String.mk rs)
      ((chunkApp a (ddChunk ds mid ts rs tail)).speed) = true ∧
    mbTenths (digitsToNat ds) = ⌊mbValue (digitsToNat ds) * 10 + 1 / 2⌋₊ ∧
    mbValue (digitsToNat ds) = (digitsToNat ds : ℚ) / 1024 ^ 2 := by
  have hBL : findBytesL ((ddChunk ds mid ts rs tail).data) = some ds :=
    findBytesL_template ds _ hdsne hds
  have hSL : findSpeedL ((ddChunk ds mid ts rs tail).data) =
      some (rs, ['M', 'B', '/', 's']) :=
    findSpeedL_template ds mid ts rs tail hds hmid hts hrsne hrs
  have hB : findBytes (ddChunk ds mid ts rs tail) = some (digitsToNat ds) := by
    unfold findBytes
    rw [hBL]
    rfl
  have hsp : String.mk rs ++ " " ++ String.mk ['M', 'B', '/', 's'] =
      String.mk rs ++ " MB/s" := by
    rw [show (" " : String) = String.mk [' '] from rfl,
      show (" MB/s" : String) = String.mk [' ', 'M', 'B', '/', 's'] from rfl,
      mkStr_append, mkStr_append, mkStr_append, List.append_assoc]
    exact rfl
  have hS : findSpeed (ddChunk ds mid ts rs tail) = some (String.mk rs ++ " MB/s") := by
    unfold findSpeed
    rw [hSL]
    simp only [Option.map_some']
    rw [hsp]
  have hApp : (chunkApp a (ddChunk ds mid ts rs tail)).bytesWritten =
      mbDisplay (digitsToNat ds) ∧
      (chunkApp a (ddChunk ds mid ts rs tail)).speed = String.mk rs ++ " MB/s" := by
    unfold chunkApp
    rw [hB, hS]
    simp [addLogA]
  refine ⟨hB, hS, hApp.1, hApp.2, ?_, mbTenths_eq_floor _, mbValue_eq_div_sq _⟩
  rw [hApp.2]
  rw [show String.mk rs ++ " MB/s" = String.mk (rs ++ [' ', 'M', 'B', '/', 's']) by
    rw [show (" MB/s" : String) = String.mk [' ', 'M', 'B', '/', 's'] from rfl,
      mkStr_append]]
  exact containsStr_mk_self rs _ hrsne

/-- C6 witness: the canonical dd progress line of the source's own
comment, `1234567890 bytes (1.2 GB, 1.1 GiB) copied, 10.5 s, 123 MB/s`,
yields a byte count of 1234567890, the rate text `123 MB/s`, and the
display `1177.4 MB` (= `toFixed(1)` of `1234567890/1024²`). -/
theorem claim_c6_witness :
    ddChunk ['1', '2', '3', '4', '5', '6', '7', '8', '9', '0']
      ['(', '1', '.', '2', ' ', 'G', 'B', ',', ' ', '1', '.', '1', ' ', 'G', 'i', 'B', ')', ' ']
      ['1', '0', '.', '5'] ['1', '2', '3'] [] =
      "1234567890 bytes (1.2 GB, 1.1 GiB) copied, 10.5 s, 123 MB/s" ∧
    findBytes (ddChunk ['1', '2', '3', '4', '5', '6', '7', '8', '9', '0']
      ['(', '1', '.', '2', ' ', 'G', 'B', ',', ' ', '1', '.', '1', ' ', 'G', 'i', 'B', ')', ' ']
      ['1', '0', '.', '5'] ['1', '2', '3'] []) = some 1234567890 ∧
    findSpeed (ddChunk ['1', '2', '3', '4', '5', '6', '7', '8', '9', '0']
      ['(', '1', '.', '2', ' ', 'G', 'B', ',', ' ', '1', '.', '1', ' ', 'G', 'i', 'B', ')', ' ']
      ['1', '0', '.', '5'] ['1', '2', '3'] []) = some "123 MB/s" ∧
    (chunkApp initialApp (ddChunk ['1', '2', '3', '4', '5', '6', '7', '8', '9', '0']
      ['(', '1', '.', '2', ' ', 'G', 'B', ',', ' ', '1', '.', '1', ' ', 'G', 'i', 'B', ')', ' ']
      ['1', '0', '.', '5'] ['1', '2', '3'] [])).bytesWritten = "1177.4 MB" ∧
    (chunkApp initialApp (ddChunk ['1', '2', '3', '4', '5', '6', '7', '8', '9', '0']
      ['(', '1', '.', '2', ' ', 'G', 'B', ',', ' ', '1', '.', '1', ' ', 'G', 'i', 'B', ')', ' ']
      ['1', '0', '.', '5'] ['1', '2', '3'] [])).speed = "123 MB/s" := by
  have h := claim_c6 ['1', '2', '3', '4', '5', '6', '7', '8', '9', '0']
    ['(', '1', '.', '2', ' ', 'G', 'B', ',', ' ', '1', '.', '1', ' ', 'G', 'i', 'B', ')', ' ']
    ['1', '0', '.', '5'] ['1', '2', '3'] [] initialApp (by decide) (by decide)
    (by decide) (by decide) (by decide) (by decide)
  refine ⟨by decide, ?_, ?_, ?_, ?_⟩
  · rw [h.1]
    rfl
  · rw [h.2.1]
    rfl
  · rw [h.2.2.1]
    decide
  · rw [h.2.2.2.1]
    rfl
